import Mathlib

/-!
Verification development for the voice-platform repository.

Shallow embedding of the Python sources:
  * `src/core/audio.py`    — RMS energy and integer downsampling on PCM16 bytes
  * `src/core/vad.py`      — the energy VAD state machine
  * `src/core/playback.py` — the FreeSWITCH playback controller
  * `src/run.py`           — the WebSocket frame dispatcher
  * `src/db/storage.py`    — the three-sink telemetry recorder
  * `src/db/redis_client.py` — the ephemeral session hash
  * `src/tts/zvukogram.py` — text chunking and chunk concatenation
  * `src/core/sessions/session_pipeline.py`, `session_llm_script.py`
                           — the `_process_speech` handlers

Bytes are modelled as `List Nat` (each entry one byte value).  External
calls (subprocesses, HTTP, databases, the LLM stream) are modelled by
oracle parameters supplying their outcomes, and observable side effects
are collected in effect lists.
-/

namespace VoicePlatform

/-! ### src/core/audio.py -/

/-- Decode one unsigned 16-bit value into the signed sample it represents
(`struct.unpack '<h'`). -/
def toInt16 (u : Nat) : Int :=
  let v := u % 65536
  if v < 32768 then (v : Int) else (v : Int) - 65536

/-- `struct.unpack(f'<{n}h', data)`: pair up bytes little-endian into
signed 16-bit samples.  A trailing odd byte yields no sample. -/
def unpackInt16 : List Nat → List Int
  | b0 :: b1 :: rest => toInt16 (b0 + 256 * b1) :: unpackInt16 rest
  | _ => []

/-- Re-encode a clamped signed sample as two little-endian bytes
(`struct.pack '<h'`). -/
def int16Bytes (v : Int) : List Nat :=
  let u := (v % 65536).toNat
  [u % 256, u / 256]

/-- `struct.pack(f'<{n}h', *out)`. -/
def packInt16 (l : List Int) : List Nat := l.flatMap int16Bytes

/-- Sum of squared samples, the numerator of the mean in `compute_rms`. -/
def sumSq (l : List Int) : Int := l.foldr (fun s acc => s * s + acc) 0

/-- The Boolean test `compute_rms(pcm_data) > thr` from `src/core/audio.py`
`compute_rms` composed with the comparison the VAD performs.
`compute_rms` returns `sqrt(sum(s*s)/n)` (and `0.0` for inputs shorter
than 2 bytes); since `sqrt` is monotone and the result is nonnegative,
for `thr ≥ 0` the comparison equals `sum(s*s) > thr^2 * n`, and for
`thr < 0` it is always true.  This keeps the embedding in exact integer
arithmetic. -/
def rms_exceeds (pcm : List Nat) (thr : Int) : Bool :=
  if pcm.length < 2 then decide ((0 : Int) > thr)
  else
    let samples := unpackInt16 (pcm.take (2 * (pcm.length / 2)))
    if thr < 0 then true
    else decide (sumSq samples > thr * thr * (samples.length : Int))

/-- The decimation loop of `downsample` with explicit fuel (the fuel is
only a termination device; `decimate` below supplies enough of it).  Each
step is one iteration of `for i in range(0, n - rat + 1, rat)`: the
floored mean (Python `//`, hence `Int.fdiv`) of one complete group of
`rat` samples, clamped to `[-32768, 32767]`. -/
def decimateAux (rat : Nat) : Nat → List Int → List Int
  | 0, _ => []
  | fuel + 1, samples =>
    if 0 < rat ∧ rat ≤ samples.length then
      (max (-32768) (min 32767 (Int.fdiv ((samples.take rat).foldr (· + ·) 0) rat)))
        :: decimateAux rat fuel (samples.drop rat)
    else []

/-- The decimation loop of `downsample`: one output sample per complete
group of `rat` input samples. -/
def decimate (rat : Nat) (samples : List Int) : List Int :=
  decimateAux rat samples.length samples

/-- `downsample(data, from_rate, to_rate)` from `src/core/audio.py`. -/
def downsample (data : List Nat) (from_rate to_rate : Nat) : List Nat :=
  if from_rate = to_rate then data
  else
    let rat := from_rate / to_rate
    if rat < 1 then data
    else
      let n := data.length / 2
      let samples := unpackInt16 (data.take (n * 2))
      packInt16 (decimate rat samples)

theorem unpackInt16_length : ∀ l : List Nat, (unpackInt16 l).length = l.length / 2
  | [] => by simp [unpackInt16]
  | [_] => by simp [unpackInt16]
  | b0 :: b1 :: rest => by
    simp only [unpackInt16, List.length_cons, unpackInt16_length rest]
    omega

theorem packInt16_length (l : List Int) : (packInt16 l).length = 2 * l.length := by
  induction l with
  | nil => simp [packInt16]
  | cons x xs ih =>
    simp only [packInt16, List.flatMap_cons, List.length_append] at *
    simp [int16Bytes, ih]
    omega

theorem decimateAux_length (rat : Nat) (hr : 0 < rat) :
    ∀ (fuel : Nat) (samples : List Int), samples.length ≤ fuel →
      (decimateAux rat fuel samples).length = samples.length / rat
  | 0, samples, h => by
    have h0 : samples.length = 0 := Nat.le_zero.mp h
    simp [decimateAux, h0]
  | fuel + 1, samples, h => by
    by_cases hc : rat ≤ samples.length
    · rw [decimateAux, if_pos ⟨hr, hc⟩, List.length_cons,
        decimateAux_length rat hr fuel (samples.drop rat)
          (by rw [List.length_drop]; omega)]
      rw [List.length_drop, Nat.div_eq_sub_div hr hc]
    · rw [decimateAux, if_neg (by tauto), Nat.div_eq_of_lt (by omega)]
      rfl

theorem decimate_length (rat : Nat) (hr : 0 < rat) (samples : List Int) :
    (decimate rat samples).length = samples.length / rat :=
  decimateAux_length rat hr samples.length samples (Nat.le_refl _)

/-! ### src/core/vad.py — EnergyVAD

The `bytearray` buffer is built exclusively by `extend`-ing whole frames,
so it is represented as the list of appended frames; the Python value
`bytes(self.audio_buffer)` corresponds to flattening that list. -/

/-- One PCM frame as fed to `feed` / `check_barge_in`. -/
abbrev Frame := List Nat

/-- Constructor arguments of `EnergyVAD`. -/
structure VadCfg where
  energy_threshold : Int
  silence_frames : Nat
  min_speech_frames : Nat
  enabled : Bool
  deriving DecidableEq

/-- Mutable state of `EnergyVAD` (`is_speaking`, `speech_count`,
`silence_count`, `audio_buffer`). -/
structure VadState where
  is_speaking : Bool
  speech_count : Nat
  silence_count : Nat
  buffer : List Frame
  deriving DecidableEq

/-- The state set up by `__init__` and restored by `reset()`. -/
def vadReset : VadState :=
  { is_speaking := false, speech_count := 0, silence_count := 0, buffer := [] }

/-- Result values of `EnergyVAD.feed`; `speech_end` carries the
accumulated frames. -/
inductive VadEvent
  | speech_start
  | speaking
  | silence
  | speech_end (clip : List Frame)
  deriving DecidableEq

/-- `EnergyVAD.feed(pcm_chunk)`.  The Python method first updates the
counters (`speech_count += 1; silence_count = 0`, resp.
`silence_count += 1`) and then branches on `self.is_speaking` and the
updated counters; since the counter updates do not touch `is_speaking`,
the branch conditions below read the original `s.is_speaking`.  In the
`speech_end` branch the chunk is appended to the buffer before the
snapshot is taken and the state is `reset()`. -/
def feed (cfg : VadCfg) (s : VadState) (chunk : Frame) : VadState × VadEvent :=
  if rms_exceeds chunk cfg.energy_threshold then
    if s.is_speaking = false ∧ cfg.min_speech_frames ≤ s.speech_count + 1 then
      ({ is_speaking := true, speech_count := s.speech_count + 1,
         silence_count := 0, buffer := [chunk] }, .speech_start)
    else if s.is_speaking then
      ({ is_speaking := true, speech_count := s.speech_count + 1,
         silence_count := 0, buffer := s.buffer ++ [chunk] }, .speaking)
    else
      ({ s with speech_count := s.speech_count + 1, silence_count := 0 }, .silence)
  else
    if s.is_speaking then
      if cfg.silence_frames ≤ s.silence_count + 1 then
        (vadReset, .speech_end (s.buffer ++ [chunk]))
      else
        ({ s with silence_count := s.silence_count + 1,
                  buffer := s.buffer ++ [chunk] }, .speaking)
    else
      ({ s with speech_count := 0 }, .silence)

/-- `EnergyVAD.check_barge_in(pcm_chunk)`:  returns the updated state and
the Boolean result. -/
def check_barge_in (cfg : VadCfg) (s : VadState) (chunk : Frame) : VadState × Bool :=
  if ¬ cfg.enabled then (s, false)
  else if rms_exceeds chunk cfg.energy_threshold then
    let sc := s.speech_count + 1
    ({ s with speech_count := sc }, sc ≥ cfg.min_speech_frames)
  else
    ({ s with speech_count := 0 }, false)

/-- `EnergyVAD.start_listening_after_barge_in(pcm_chunk)`. -/
def start_listening_after_barge_in (s : VadState) (chunk : Frame) : VadState :=
  { s with is_speaking := true, buffer := [chunk],
           silence_count := 0, speech_count := 0 }

/-- Run a sequence of `feed` calls, collecting the emitted events. -/
def runFeeds (cfg : VadCfg) (s : VadState) : List Frame → VadState × List VadEvent
  | [] => (s, [])
  | f :: fs =>
    let (s1, e) := feed cfg s f
    let (s2, evs) := runFeeds cfg s1 fs
    (s2, e :: evs)

/-- Any call on the detector (used for the temporal claim about mixed
operation sequences). -/
inductive VadOp
  | feedOp (f : Frame)
  | checkOp (f : Frame)
  | afterBargeOp (f : Frame)

/-- One detector operation; only `feed` emits an event. -/
def vadStep (cfg : VadCfg) (s : VadState) : VadOp → VadState × Option VadEvent
  | .feedOp f => let (s1, e) := feed cfg s f; (s1, some e)
  | .checkOp f => ((check_barge_in cfg s f).1, none)
  | .afterBargeOp f => (start_listening_after_barge_in s f, none)

/-- Run a sequence of detector operations, collecting feed events. -/
def runVad (cfg : VadCfg) (s : VadState) : List VadOp → VadState × List VadEvent
  | [] => (s, [])
  | op :: rest =>
    let (s1, e) := vadStep cfg s op
    let (s2, evs) := runVad cfg s1 rest
    (s2, e.toList ++ evs)

/-- Project an event list to its `speech_start` (`true`) and `speech_end`
(`false`) markers. -/
def markers (evs : List VadEvent) : List Bool :=
  evs.filterMap fun e =>
    match e with
    | .speech_start => some true
    | .speech_end _ => some false
    | _ => none

/-- `startsSeparated b ms`:  in the marker list `ms`, every `speech_start`
marker is preceded by a `speech_end` marker (or is the first marker, when
`b = false`); `b` records whether a start is currently open. -/
def startsSeparated : Bool → List Bool → Prop
  | _, [] => True
  | b, true :: rest => b = false ∧ startsSeparated true rest
  | _, false :: rest => startsSeparated false rest

/-! ### VAD lemmas -/

/-- Case summary of `feed`:  a `speech_start` flips `is_speaking` from
false to true, a `speech_end` leaves it false, and the other events
preserve it. -/
theorem feed_cases (cfg : VadCfg) (s : VadState) (c : Frame) :
    ((feed cfg s c).2 = VadEvent.speech_start
        ∧ s.is_speaking = false ∧ ((feed cfg s c).1).is_speaking = true)
    ∨ ((∃ a, (feed cfg s c).2 = VadEvent.speech_end a)
        ∧ ((feed cfg s c).1).is_speaking = false)
    ∨ (((feed cfg s c).2 = VadEvent.speaking ∨ (feed cfg s c).2 = VadEvent.silence)
        ∧ ((feed cfg s c).1).is_speaking = s.is_speaking) := by
  unfold feed
  split_ifs with h1 h2 h3 h4 h5
  · exact Or.inl ⟨rfl, h2.1, rfl⟩
  · exact Or.inr (Or.inr ⟨Or.inl rfl, by simp [h3]⟩)
  · exact Or.inr (Or.inr ⟨Or.inr rfl, rfl⟩)
  · exact Or.inr (Or.inl ⟨⟨s.buffer ++ [c], rfl⟩, rfl⟩)
  · exact Or.inr (Or.inr ⟨Or.inl rfl, rfl⟩)
  · exact Or.inr (Or.inr ⟨Or.inr rfl, rfl⟩)

/-- `check_barge_in` never changes `is_speaking`. -/
theorem check_barge_in_is_speaking (cfg : VadCfg) (s : VadState) (c : Frame) :
    ((check_barge_in cfg s c).1).is_speaking = s.is_speaking := by
  unfold check_barge_in
  split_ifs <;> rfl

/-- Invariant for the emitted-buffer claim: while speaking, the buffer is
non-empty and begins with a frame whose RMS exceeded the threshold. -/
def headEnergetic (cfg : VadCfg) (s : VadState) : Prop :=
  s.is_speaking = true →
    ∃ f rest, s.buffer = f :: rest ∧ rms_exceeds f cfg.energy_threshold = true

theorem feed_preserves_headEnergetic (cfg : VadCfg) (s : VadState) (c : Frame)
    (h : headEnergetic cfg s) : headEnergetic cfg (feed cfg s c).1 := by
  unfold headEnergetic feed
  split_ifs with h1 h2 h3 h4 h5 <;> intro hs
  · exact ⟨c, [], rfl, h1⟩
  · obtain ⟨f, rest, hb, hf⟩ := h h3
    exact ⟨f, rest ++ [c], by simp [hb], hf⟩
  · simp only [VadState.is_speaking] at hs
    exact h hs
  · simp [vadReset] at hs
  · obtain ⟨f, rest, hb, hf⟩ := h h4
    exact ⟨f, rest ++ [c], by simp [hb], hf⟩
  · simp only [VadState.is_speaking] at hs
    exact h hs

theorem feed_speech_end_headEnergetic (cfg : VadCfg) (s : VadState) (c : Frame)
    (clip : List Frame) (h : headEnergetic cfg s)
    (he : (feed cfg s c).2 = VadEvent.speech_end clip) :
    ∃ f rest, clip = f :: rest ∧ rms_exceeds f cfg.energy_threshold = true := by
  unfold feed at he
  split_ifs at he with h1 h2 h3 h4 h5
  obtain ⟨f, rest, hb, hf⟩ := h h4
  refine ⟨f, rest ++ [c], ?_, hf⟩
  have hpair : VadEvent.speech_end (s.buffer ++ [c]) = VadEvent.speech_end clip := he
  injection hpair with hce
  rw [← hce, hb]
  rfl

theorem runFeeds_speech_end_clip (cfg : VadCfg) :
    ∀ (fs : List Frame) (s : VadState), headEnergetic cfg s →
      ∀ clip, VadEvent.speech_end clip ∈ (runFeeds cfg s fs).2 →
        ∃ f rest, clip = f :: rest ∧ rms_exceeds f cfg.energy_threshold = true
  | [], s, _, clip, hm => by simp [runFeeds] at hm
  | f :: fs, s, hinv, clip, hm => by
    rw [runFeeds] at hm
    simp only [List.mem_cons] at hm
    rcases hm with hm | hm
    · exact feed_speech_end_headEnergetic cfg s f clip hinv hm.symm
    · exact runFeeds_speech_end_clip cfg fs (feed cfg s f).1
        (feed_preserves_headEnergetic cfg s f hinv) clip hm

/-- **C2 (amended).**  Along any sequence of `feed` calls from the initial
state, whenever `feed` emits `speech_end(clip)`, the emitted buffer begins
with a frame whose RMS exceeded `energy_threshold`, and hence contains at
least one such frame.  (The original claim's bound of `min_speech_frames`
energetic frames fails: only the frame that triggered `speech_start` is
retained from the onset run.) -/
theorem speech_end_clip_head_energetic (cfg : VadCfg) (fs : List Frame)
    (clip : List Frame)
    (h : VadEvent.speech_end clip ∈ (runFeeds cfg vadReset fs).2) :
    ∃ f rest, clip = f :: rest ∧ rms_exceeds f cfg.energy_threshold = true ∧
      0 < clip.countP (fun fr => rms_exceeds fr cfg.energy_threshold) := by
  obtain ⟨f, rest, hc, hf⟩ :=
    runFeeds_speech_end_clip cfg fs vadReset (by intro hs; simp [vadReset] at hs) clip h
  refine ⟨f, rest, hc, hf, ?_⟩
  simp [hc, List.countP_cons, hf]

/-- Witness for `speech_end_clip_head_energetic` at a concrete trace
(threshold 0, `min_speech_frames` 1, `silence_frames` 1). -/
theorem speech_end_clip_head_energetic_witness :
    VadEvent.speech_end [[1, 0], [0, 0]]
        ∈ (runFeeds ⟨0, 1, 1, true⟩ vadReset [[1, 0], [0, 0]]).2
    ∧ ∃ f rest, ([[1, 0], [0, 0]] : List Frame) = f :: rest
        ∧ rms_exceeds f 0 = true
        ∧ 0 < ([[1, 0], [0, 0]] : List Frame).countP (fun fr => rms_exceeds fr 0) :=
  ⟨by decide,
   speech_end_clip_head_energetic ⟨0, 1, 1, true⟩ [[1, 0], [0, 0]] [[1, 0], [0, 0]]
     (by decide)⟩

/-- **C2 counterexample.**  With `min_speech_frames = 2`, a trace of two
energetic frames followed by silence emits `speech_end` whose buffer holds
only one frame with RMS above the threshold — fewer than
`min_speech_frames`. -/
theorem speech_end_clip_counterexample :
    VadEvent.speech_end [[1, 0], [0, 0]]
        ∈ (runFeeds ⟨0, 1, 2, true⟩ vadReset [[1, 0], [1, 0], [0, 0]]).2
    ∧ ([[1, 0], [0, 0]] : List Frame).countP (fun fr => rms_exceeds fr 0) < 2 := by
  decide

theorem runVad_no_double_start (cfg : VadCfg) :
    ∀ (ops : List VadOp) (s : VadState) (b : Bool),
      (b = true → s.is_speaking = true) →
      startsSeparated b (markers (runVad cfg s ops).2)
  | [], _, b, _ => by simp [runVad, markers, startsSeparated]
  | op :: rest, s, b, hb => by
    rw [runVad]
    cases op with
    | feedOp f =>
      simp only [vadStep]
      rcases feed_cases cfg s f with ⟨he, hold, hnew⟩ | ⟨⟨a, he⟩, hnew⟩ | ⟨he, hnew⟩
      · have hbf : b = false := by
          by_contra hbt
          have := hb (by revert hbt; cases b <;> simp)
          rw [this] at hold
          exact Bool.true_eq_false.mp hold
        simp only [markers, he, List.filterMap_append, List.filterMap_cons,
          Option.toList_some, List.filterMap_nil, List.nil_append]
        exact ⟨hbf, runVad_no_double_start cfg rest _ true (fun _ => hnew)⟩
      · simp only [markers, he, List.filterMap_append, List.filterMap_cons,
          Option.toList_some, List.filterMap_nil, List.nil_append]
        have := runVad_no_double_start cfg rest (feed cfg s f).1 false (by simp)
        cases b <;> simpa [startsSeparated, markers] using this
      · have hrec := runVad_no_double_start cfg rest (feed cfg s f).1 b
          (fun h => hnew.symm ▸ hb h)
        rcases he with he | he <;>
          simpa [markers, he, List.filterMap_append] using hrec
    | checkOp f =>
      simp only [vadStep, Option.toList_none, List.nil_append]
      exact runVad_no_double_start cfg rest _ b
        (fun h => (check_barge_in_is_speaking cfg s f).symm ▸ hb h)
    | afterBargeOp f =>
      simp only [vadStep, Option.toList_none, List.nil_append]
      exact runVad_no_double_start cfg rest _ b (fun _ => rfl)

/-- **C6.**  Along any sequence of `feed`, `check_barge_in` and
`start_listening_after_barge_in` calls from a fresh detector, `feed` never
emits two `speech_start` events without an intervening `speech_end`. -/
theorem vad_never_double_speech_start (cfg : VadCfg) (ops : List VadOp) :
    startsSeparated false (markers (runVad cfg vadReset ops).2) :=
  runVad_no_double_start cfg ops vadReset false (by simp)

/-! ### Downsample length (claim C8) -/

/-- **C8 (amended).**  For rates `r1 > r2` with `r1 % r2 = 0`, the byte
length of the downsampled output is `floor(len(b)/2 / (r1/r2)) * 2` —
without the claim's extra factor of 2 on the left-hand side (Python `len`
on `bytes` counts bytes, and each output sample occupies two bytes). -/
theorem downsample_output_length (data : List Nat) (r1 r2 : Nat)
    (hgt : r2 < r1) (hmod : r1 % r2 = 0) :
    (downsample data r1 r2).length = data.length / 2 / (r1 / r2) * 2 := by
  have hr2 : 0 < r2 := by
    rcases Nat.eq_zero_or_pos r2 with h0 | h
    · rw [h0, Nat.mod_zero] at hmod
      omega
    · exact h
  have hrat : 1 ≤ r1 / r2 := (Nat.one_le_div_iff hr2).mpr (Nat.le_of_lt hgt)
  simp only [downsample]
  rw [if_neg (by omega), if_neg (by omega), packInt16_length,
    decimate_length _ (by omega), unpackInt16_length]
  have htake : (data.take (data.length / 2 * 2)).length = data.length / 2 * 2 := by
    rw [List.length_take]
    exact Nat.min_eq_left (Nat.div_mul_le_self _ _)
  rw [htake, Nat.mul_div_cancel _ (by omega)]
  exact Nat.mul_comm _ _

/-- Witness for `downsample_output_length` at a concrete input. -/
theorem downsample_output_length_witness :
    8000 < 16000 ∧ 16000 % 8000 = 0 ∧
      (downsample [1, 2, 3, 4, 5, 6] 16000 8000).length
        = ([1, 2, 3, 4, 5, 6] : List Nat).length / 2 / (16000 / 8000) * 2 :=
  ⟨by decide, by decide,
   downsample_output_length [1, 2, 3, 4, 5, 6] 16000 8000 (by decide) (by decide)⟩

/-- **C8 counterexample.**  At a 4-byte input and rates 16000 → 8000 the
claim's equation `len(output)*2 == floor(len(b)/2/(r1/r2))*2` fails:
the left side is 4, the right side is 2. -/
theorem downsample_length_claim_counterexample :
    8000 < 16000 ∧ 16000 % 8000 = 0 ∧
      ¬ ((downsample [0, 0, 0, 0] 16000 8000).length * 2
          = ([0, 0, 0, 0] : List Nat).length / 2 / (16000 / 8000) * 2) := by
  decide

/-! ### src/core/playback.py — FSPlayback

Subprocess calls (`fs_cli`) and file I/O are modelled by an environment
record supplying their outcomes and by an effect list recording the
observable actions.  A concurrent `stop()` clearing `is_playing` while
`play_pcm` awaits is modelled by `preempted`. -/

/-- Fields of `FSPlayback`. -/
structure PBState where
  uuid : String
  call_id : String
  is_playing : Bool
  is_active : Bool
  file_counter : Nat
  deriving DecidableEq

/-- `FSPlayback.__init__(uuid, call_id)`. -/
def initPB (u cid : String) : PBState :=
  { uuid := u, call_id := cid, is_playing := false, is_active := true,
    file_counter := 0 }

/-- Environment of one `play_pcm` call: whether the `try` block raises,
whether the broadcast reply contains `+OK`, and whether a concurrent
`stop()` cleared `is_playing` during an await. -/
structure PlayEnv where
  raises : Bool
  broadcastOk : Bool
  preempted : Bool
  deriving DecidableEq

/-- Observable playback actions. -/
inductive PBEff
  | wroteWav (idx : Nat) (bytes : List Nat)
  | broadcastCmd (idx : Nat)
  | breakCmd
  | unlinkWav (idx : Nat)
  deriving DecidableEq

/-- `FSPlayback.play_pcm(pcm_data, sample_rate)`.  Returns the new state,
the Boolean result, and the emitted effects.  Control flow from the
source: early return on empty input or missing uuid; downsample to 8 kHz;
write the scratch WAV; set `is_playing`; broadcast; poll until the
duration elapses or `is_playing`/`is_active` clears; return `is_playing`;
`finally` clears `is_playing` and unlinks the scratch file. -/
def play_pcm (s : PBState) (pcm : List Nat) (rate : Nat) (env : PlayEnv) :
    PBState × Bool × List PBEff :=
  if pcm = [] ∨ s.uuid = "" then (s, false, [])
  else
    let pcm1 := if rate ≠ 8000 then downsample pcm rate 8000 else pcm
    let idx := s.file_counter
    let s1 : PBState := { s with file_counter := idx + 1 }
    if env.raises then
      ({ s1 with is_playing := false }, false,
       [.wroteWav idx pcm1, .unlinkWav idx])
    else if ¬ env.broadcastOk then
      ({ s1 with is_playing := false }, false,
       [.wroteWav idx pcm1, .broadcastCmd idx, .unlinkWav idx])
    else
      -- The poll loop exits when the duration has elapsed or when
      -- `is_playing` (cleared by a concurrent stop) or `is_active` is
      -- false; `return self.is_playing` then yields `true` unless a stop
      -- preempted the playback, and the `finally` clears `is_playing`.
      ({ s1 with is_playing := false }, ¬ env.preempted,
       [.wroteWav idx pcm1, .broadcastCmd idx, .unlinkWav idx])

/-- `FSPlayback.stop()`.  On an exception inside its `try` block the flag
is left unchanged and no break command is recorded. -/
def stop (s : PBState) (raises : Bool) : PBState × List PBEff :=
  if s.uuid ≠ "" ∧ s.is_playing then
    if raises then (s, [])
    else ({ s with is_playing := false }, [.breakCmd])
  else (s, [])

/-- `FSPlayback.close()`. -/
def close (s : PBState) : PBState := { s with is_active := false }

/-- Sequential playback-controller operations (callers guarantee that
`play_pcm` calls are sequenced; concurrent stops during a play are part
of `PlayEnv`). -/
inductive PBOp
  | playOp (pcm : List Nat) (rate : Nat) (env : PlayEnv)
  | stopOp (raises : Bool)
  | closeOp

/-- Run a sequence of playback operations. -/
def pbRun (s : PBState) : List PBOp → PBState
  | [] => s
  | .playOp pcm rate env :: rest => pbRun (play_pcm s pcm rate env).1 rest
  | .stopOp r :: rest => pbRun (stop s r).1 rest
  | .closeOp :: rest => pbRun (close s) rest

theorem play_pcm_exit_not_playing (s : PBState) (pcm : List Nat) (rate : Nat)
    (env : PlayEnv) (h : s.is_playing = false) :
    ((play_pcm s pcm rate env).1).is_playing = false := by
  unfold play_pcm
  split_ifs <;> simp [h]

theorem stop_exit_not_playing (s : PBState) (r : Bool)
    (h : s.is_playing = false) : ((stop s r).1).is_playing = false := by
  unfold stop
  split_ifs <;> simp_all

theorem pbRun_not_playing :
    ∀ (ops : List PBOp) (s : PBState), s.is_playing = false →
      (pbRun s ops).is_playing = false
  | [], _, h => h
  | .playOp pcm rate env :: rest, s, h =>
    pbRun_not_playing rest _ (play_pcm_exit_not_playing s pcm rate env h)
  | .stopOp r :: rest, s, h =>
    pbRun_not_playing rest _ (stop_exit_not_playing s r h)
  | .closeOp :: rest, s, h => pbRun_not_playing rest (close s) h

/-- **C9.**  In every sequential use of the controller starting from
construction — any interleaving of `play_pcm` (with arbitrary broadcast
results, exceptions and concurrent-stop preemptions), `stop` and
`close` — a further `play_pcm` call returns with `is_playing = false`,
on every path. -/
theorem play_pcm_returns_not_playing (u cid : String) (ops : List PBOp)
    (pcm : List Nat) (rate : Nat) (env : PlayEnv) :
    ((play_pcm (pbRun (initPB u cid) ops) pcm rate env).1).is_playing = false :=
  play_pcm_exit_not_playing _ pcm rate env (pbRun_not_playing ops (initPB u cid) rfl)

/-- **C3 (code bug).**  After `close()`, a `play_pcm` call with non-empty
input and a set uuid does **not** early-return: it writes the scratch WAV,
issues the broadcast command, and (the poll loop being skipped because
`is_active` is false) even returns `true` when `fs_cli` answers `+OK`. -/
theorem play_pcm_after_close_still_broadcasts :
    play_pcm (close (initPB "u-1" "call-0001")) [1, 2] 8000
        { raises := false, broadcastOk := true, preempted := false }
      = ({ uuid := "u-1", call_id := "call-0001", is_playing := false,
           is_active := false, file_counter := 1 },
         true,
         [.wroteWav 0 [1, 2], .broadcastCmd 0, .unlinkWav 0]) := by
  decide

/-! ### src/run.py — binary-frame dispatch in `handle_connection` -/

/-- `bytes.decode('ascii')`: succeeds iff every byte is below 128. -/
def decodeAsciiChars (b : List Nat) : Option (List Char) :=
  if b.all (· < 128) then some (b.map Char.ofNat) else none

/-- Effects of processing one inbound frame. -/
inductive ConnEff
  | startTask
  | handleAudioCall (b : List Nat)
  deriving DecidableEq

/-- The binary-frame branch of `handle_connection` (`src/run.py`):
while `session.uuid is None` and the frame is longer than 36 bytes, try to
decode the first 36 bytes as ASCII; if the result contains a dash, store
it as the uuid, spawn `session.start()` and skip `handle_audio`;
otherwise (decode failure or no dash) fall through to
`session.handle_audio(message)`. -/
def handleBinaryFrame (u : Option (List Char)) (b : List Nat) :
    Option (List Char) × List ConnEff :=
  if u = none ∧ 36 < b.length then
    match decodeAsciiChars (b.take 36) with
    | some s => if '-' ∈ s then (some s, [.startTask]) else (u, [.handleAudioCall b])
    | none => (u, [.handleAudioCall b])
  else (u, [.handleAudioCall b])

/-- Hexadecimal digit (claim-side notion used to spell out "decodes as a
UUID"). -/
def isHexDigit (c : Char) : Bool :=
  c.isDigit || ('a' ≤ c && c ≤ 'f') || ('A' ≤ c && c ≤ 'F')

/-- The canonical textual UUID shape `8-4-4-4-12`: 36 characters, dashes
at positions 8, 13, 18 and 23, hex digits elsewhere. -/
def isUuidChars (s : List Char) : Bool :=
  s.length == 36 && (List.range 36).all fun i =>
    if i = 8 ∨ i = 13 ∨ i = 18 ∨ i = 23 then s.getD i ' ' == '-'
    else isHexDigit (s.getD i ' ')

/-- "The bytes decode as a UUID": ASCII-decodable and of UUID shape. -/
def isUuidBytes (b : List Nat) : Bool :=
  match decodeAsciiChars b with
  | some s => isUuidChars s
  | none => false

theorem isUuidChars_dash_mem (s : List Char) (h : isUuidChars s = true) :
    '-' ∈ s := by
  unfold isUuidChars at h
  rw [Bool.and_eq_true, beq_iff_eq, List.all_eq_true] at h
  obtain ⟨hlen, hall⟩ := h
  have h8 := hall 8 (by decide)
  rw [if_pos (by omega), beq_iff_eq] at h8
  have hlt : 8 < s.length := by omega
  rw [List.getD_eq_getElem s ' ' hlt] at h8
  exact h8 ▸ List.getElem_mem hlt

/-- **C4 (amended).**  For every binary frame of **more than** 36 bytes
arriving while the session's uuid is unset, if the first 36 bytes decode
as a UUID then the handler stores them as the uuid and spawns
`session.start()`, and does not pass the frame to `handle_audio`.  (The
original claim's "at least 36 bytes" fails: the source condition is
`len(message) > 36`, so an exactly-36-byte frame is treated as audio.) -/
theorem long_uuid_frame_sets_uuid (b : List Nat)
    (hlen : 36 < b.length) (huuid : isUuidBytes (b.take 36) = true) :
    ∃ s, decodeAsciiChars (b.take 36) = some s ∧
      handleBinaryFrame none b = (some s, [ConnEff.startTask]) := by
  unfold isUuidBytes at huuid
  cases hdec : decodeAsciiChars (b.take 36) with
  | none => rw [hdec] at huuid; simp at huuid
  | some s =>
    rw [hdec] at huuid
    have huuid' : isUuidChars s = true := huuid
    refine ⟨s, rfl, ?_⟩
    unfold handleBinaryFrame
    rw [if_pos ⟨rfl, hlen⟩, hdec]
    show (if '-' ∈ s then (some s, [ConnEff.startTask])
          else (none, [ConnEff.handleAudioCall b])) = (some s, [ConnEff.startTask])
    rw [if_pos (isUuidChars_dash_mem s huuid')]

/-- Witness for `long_uuid_frame_sets_uuid`: a 37-byte frame whose first
36 bytes are a textual UUID. -/
theorem long_uuid_frame_sets_uuid_witness :
    36 < ("aaaaaaaa-aaaa-aaaa-aaaa-aaaaaaaaaaaa".data.map Char.toNat ++ [0]).length
    ∧ isUuidBytes (("aaaaaaaa-aaaa-aaaa-aaaa-aaaaaaaaaaaa".data.map Char.toNat
        ++ [0]).take 36) = true
    ∧ ∃ s, decodeAsciiChars (("aaaaaaaa-aaaa-aaaa-aaaa-aaaaaaaaaaaa".data.map
          Char.toNat ++ [0]).take 36) = some s
        ∧ handleBinaryFrame none ("aaaaaaaa-aaaa-aaaa-aaaa-aaaaaaaaaaaa".data.map
            Char.toNat ++ [0]) = (some s, [ConnEff.startTask]) :=
  ⟨by decide, by decide,
   long_uuid_frame_sets_uuid _ (by decide) (by decide)⟩

/-- **C4 counterexample.**  A frame of exactly 36 bytes whose bytes are a
textual UUID is *not* recognised: the uuid stays unset and the frame goes
to `handle_audio`, contradicting the claim's "at least 36 bytes". -/
theorem exact_36_byte_uuid_frame_ignored :
    ("aaaaaaaa-aaaa-aaaa-aaaa-aaaaaaaaaaaa".data.map Char.toNat).length = 36
    ∧ isUuidBytes ("aaaaaaaa-aaaa-aaaa-aaaa-aaaaaaaaaaaa".data.map Char.toNat) = true
    ∧ handleBinaryFrame none ("aaaaaaaa-aaaa-aaaa-aaaa-aaaaaaaaaaaa".data.map Char.toNat)
      = (none, [ConnEff.handleAudioCall
          ("aaaaaaaa-aaaa-aaaa-aaaa-aaaaaaaaaaaa".data.map Char.toNat)]) := by
  decide

/-! ### src/db/storage.py — telemetry fanout

Each recorder operation consists of per-sink blocks; every block is
wrapped in its own `try/except` that logs and swallows the exception.
Within a block the writes run in order and a raising write aborts the
rest of the block only.  The oracle `fail` says which individual sink
writes raise. -/

/-- The three sinks. -/
inductive Sink
  | pgSink
  | mongoSink
  | redisSink
  deriving DecidableEq

/-- The individual sink writes issued by the five recorder operations. -/
inductive SCall
  | pgInsertCall
  | pgFinishCall
  | mCreateTranscription
  | mAddSegmentUser
  | mAddStepAsr
  | mAddSegmentBot
  | mAddStepLlm
  | mAddStepTts
  | mAddStepBargeIn
  | mFinishTranscription
  | rCreateSession
  | rPublishStarted
  | rPushUser
  | rUpdateTurns
  | rPushBot
  | rGetSession
  | rUpdateBargeIns
  | rEndSession
  | rPublishEnded
  deriving DecidableEq

/-- Which sink a write belongs to. -/
def sinkOf : SCall → Sink
  | .pgInsertCall | .pgFinishCall => .pgSink
  | .mCreateTranscription | .mAddSegmentUser | .mAddStepAsr | .mAddSegmentBot
  | .mAddStepLlm | .mAddStepTts | .mAddStepBargeIn | .mFinishTranscription => .mongoSink
  | _ => .redisSink

/-- The five public recorder operations.  `on_bot_response` issues the
TTS pipeline step only when a `tts_provider` was given; `on_barge_in`
updates the counter only when `get_session` found the session. -/
inductive StorageOp
  | onCallStart
  | onUserSpeech
  | onBotResponse (hasTts : Bool)
  | onBargeIn (sessionFound : Bool)
  | onCallEnd

/-- The per-sink `try` blocks of each operation, in source order. -/
def opBlocks : StorageOp → List (List SCall)
  | .onCallStart =>
    [[.pgInsertCall], [.mCreateTranscription], [.rCreateSession, .rPublishStarted]]
  | .onUserSpeech =>
    [[.mAddSegmentUser, .mAddStepAsr], [.rPushUser, .rUpdateTurns]]
  | .onBotResponse hasTts =>
    [[.mAddSegmentBot, .mAddStepLlm] ++ (if hasTts then [.mAddStepTts] else []),
     [.rPushBot]]
  | .onBargeIn found =>
    [[.mAddStepBargeIn], [.rGetSession] ++ (if found then [.rUpdateBargeIns] else [])]
  | .onCallEnd =>
    [[.pgFinishCall], [.mFinishTranscription], [.rEndSession, .rPublishEnded]]

/-- Execute one `try` block: writes are attempted in order; the first
raising write (per the `fail` oracle) is the last one attempted, and the
surrounding `except` swallows the error. -/
def runBlock (fail : SCall → Bool) : List SCall → List SCall
  | [] => []
  | c :: rest => if fail c then [c] else c :: runBlock fail rest

/-- All writes attempted by one recorder operation.  The operation always
returns normally: every block is guarded by its own `except`. -/
def attempted (fail : SCall → Bool) (op : StorageOp) : List SCall :=
  ((opBlocks op).map (runBlock fail)).flatten

theorem runBlock_no_fail (fail : SCall → Bool) :
    ∀ blk : List SCall, (∀ c ∈ blk, fail c = false) → runBlock fail blk = blk
  | [], _ => rfl
  | c :: rest, h => by
    rw [runBlock, if_neg (by simp [h c (List.mem_cons_self c rest)]),
      runBlock_no_fail fail rest (fun d hd => h d (List.mem_cons_of_mem c hd))]

/-- **C5.**  For every recorder operation and every pattern of sink
failures, every write belonging to a block none of whose own writes
raises is still attempted — failures in the other sinks' blocks cannot
suppress it (and, the execution being total, the operation returns
normally). -/
theorem telemetry_sink_isolation (fail : SCall → Bool) (op : StorageOp)
    (blk : List SCall) (hblk : blk ∈ opBlocks op)
    (hok : ∀ c ∈ blk, fail c = false) :
    ∀ c ∈ blk, c ∈ attempted fail op := by
  intro c hc
  unfold attempted
  rw [List.mem_flatten]
  exact ⟨runBlock fail blk, List.mem_map_of_mem (runBlock fail) hblk,
    by rw [runBlock_no_fail fail blk hok]; exact hc⟩

/-- Witness for `telemetry_sink_isolation`:  with every Mongo write
failing, `on_user_speech` still attempts both of its Redis writes. -/
theorem telemetry_sink_isolation_witness :
    ([SCall.rPushUser, SCall.rUpdateTurns] ∈ opBlocks .onUserSpeech)
    ∧ (∀ c ∈ [SCall.rPushUser, SCall.rUpdateTurns],
        (fun c => sinkOf c == Sink.mongoSink) c = false)
    ∧ ∀ c ∈ [SCall.rPushUser, SCall.rUpdateTurns],
        c ∈ attempted (fun c => sinkOf c == Sink.mongoSink) .onUserSpeech :=
  ⟨by decide, by decide,
   telemetry_sink_isolation (fun c => sinkOf c == Sink.mongoSink) .onUserSpeech
     [SCall.rPushUser, SCall.rUpdateTurns] (by decide) (by decide)⟩

/-! ### src/db/redis_client.py — the ephemeral session hash (claim C10)

A Redis hash is modelled as a partial map from field names to string
values; `hset(key, mapping=m)` sets every field of `m`. -/

/-- The session hash. -/
def RHash := String → Option String

/-- `hset` with a mapping: later pairs win, existing fields are
overwritten, others are kept. -/
def hsetMapping (h : RHash) (kvs : List (String × String)) : RHash :=
  kvs.foldl (fun acc kv => fun q => if q = kv.1 then some kv.2 else acc q) h

/-- `RedisClient.create_session(call_id, ...)`: the initial session hash
written by `hset(key, mapping=...)` (over an absent key, i.e. the empty
hash). -/
def create_session (state mode robot_name language scenario_id caller : String) :
    RHash :=
  hsetMapping (fun _ => none)
    [("state", state), ("mode", mode), ("robot_name", robot_name),
     ("language", language), ("scenario_id", scenario_id), ("caller", caller),
     ("turns", "0"), ("barge_ins", "0")]

/-- `RedisClient.update_session(call_id, **fields)` applies
`hset(key, mapping={k: str(v) for k, v in fields.items()})`. -/
def update_session (h : RHash) (fields : List (String × String)) : RHash :=
  hsetMapping h fields

/-- The Redis part of `Storage.on_user_speech`: after `push_message`, it
calls `update_session(call_id, turns=str(asr_latency_ms))`. -/
def on_user_speech_redis (h : RHash) (asr_latency_ms : Nat) : RHash :=
  update_session h [("turns", toString asr_latency_ms)]

/-- **C10.**  `create_session` initializes the hash field `turns` to the
string "0", and `on_user_speech` then overwrites that same field with the
string form of `asr_latency_ms` — so afterwards it holds the latest ASR
latency, not the turn count. -/
theorem on_user_speech_overwrites_turns
    (state mode robot_name language scenario_id caller : String)
    (asr_latency_ms : Nat) :
    create_session state mode robot_name language scenario_id caller "turns"
      = some "0"
    ∧ on_user_speech_redis
        (create_session state mode robot_name language scenario_id caller)
        asr_latency_ms "turns"
      = some (toString asr_latency_ms) := by
  constructor
  · rfl
  · rfl

/-! ### src/tts/zvukogram.py — `_split_text` and `synthesize`

Text is modelled as `List Char`; Python `str.strip()` is `trimWs`. -/

/-- `str.strip()`: drop leading and trailing whitespace. -/
def trimWs (l : List Char) : List Char :=
  ((l.dropWhile fun c => c.isWhitespace).reverse.dropWhile fun c =>
    c.isWhitespace).reverse

/-- The sentence-ender set `'.!?։'` of `_split_text` (the last character
is the Armenian full stop). -/
def enders : List Char := ['.', '!', '?', '։']

/-- The sentence-splitting loop of `_split_text`: `temp` accumulates
characters; an ender found once `temp` is longer than one character
closes a (stripped) sentence; a non-empty stripped remainder becomes the
last sentence. -/
def sentenceGo : List Char → List Char → List (List Char)
  | [], temp => if trimWs temp ≠ [] then [trimWs temp] else []
  | c :: rest, temp =>
    if c ∈ enders ∧ 1 < (temp ++ [c]).length then
      trimWs (temp ++ [c]) :: sentenceGo rest []
    else
      sentenceGo rest (temp ++ [c])

/-- The sentence list produced by `_split_text`'s first loop. -/
def pySplitSentences (text : List Char) : List (List Char) :=
  sentenceGo text []

/-- The greedy packing loop of `_split_text`: merge sentences into
`current` while `len(current) + len(sentence) + 1 <= max_len`, else emit
`current` (when non-empty) and start over from the sentence. -/
def packChunks (maxLen : Nat) : List (List Char) → List Char → List (List Char)
  | [], current => if current ≠ [] then [current] else []
  | s :: rest, current =>
    if current.length + s.length + 1 ≤ maxLen then
      packChunks maxLen rest
        (if current ≠ [] then trimWs (current ++ [' '] ++ s) else s)
    else
      if current ≠ [] then current :: packChunks maxLen rest s
      else packChunks maxLen rest s

/-- `ZvukogramTTS._split_text(text, max_len)`. -/
def split_text (text : List Char) (maxLen : Nat) : List (List Char) :=
  if text.length ≤ maxLen then [text]
  else
    let chunks := packChunks maxLen (pySplitSentences text) []
    if chunks ≠ [] then chunks else [text.take maxLen]

/-- `ZvukogramTTS.synthesize(text)` with the per-chunk synthesis
(`_synthesize_chunk`, an HTTP call) supplied as the oracle `f`: split at
900, accumulate the non-empty per-chunk PCM in order, raise
(`RuntimeError`) when nothing was produced. -/
def synthesize (f : List Char → List Nat) (text : List Char) :
    Except Unit (List Nat) :=
  let all := (split_text text 900).foldl
    (fun acc ch => let pcm := f ch; if pcm ≠ [] then acc ++ pcm else acc) []
  if all = [] then .error () else .ok all

theorem dropWhile_length_le {α : Type} (p : α → Bool) :
    ∀ l : List α, (l.dropWhile p).length ≤ l.length
  | [] => Nat.le_refl _
  | a :: rest => by
    rw [List.dropWhile_cons]
    split_ifs
    · exact Nat.le_trans (dropWhile_length_le p rest) (by simp)
    · exact Nat.le_refl _

theorem trimWs_length_le (l : List Char) : (trimWs l).length ≤ l.length := by
  unfold trimWs
  rw [List.length_reverse]
  calc ((l.dropWhile fun c => c.isWhitespace).reverse.dropWhile fun c =>
          c.isWhitespace).length
      ≤ (l.dropWhile fun c => c.isWhitespace).reverse.length :=
        dropWhile_length_le _ _
    _ ≤ l.length := by rw [List.length_reverse]; exact dropWhile_length_le _ _

theorem packChunks_sound (maxLen : Nat) (S : List (List Char)) :
    ∀ (sents : List (List Char)) (current : List Char),
      (∀ s ∈ sents, s ∈ S) → (current.length ≤ maxLen ∨ current ∈ S) →
      ∀ c ∈ packChunks maxLen sents current, c.length ≤ maxLen ∨ c ∈ S
  | [], current, _, hcur, c, hc => by
    rw [packChunks] at hc
    split_ifs at hc with h
    · rw [List.mem_singleton] at hc
      exact hc ▸ hcur
    · simp at hc
  | s :: rest, current, hS, hcur, c, hc => by
    have hsS : s ∈ S := hS s (List.mem_cons_self s rest)
    have hrest : ∀ t ∈ rest, t ∈ S := fun t ht => hS t (List.mem_cons_of_mem s ht)
    rw [packChunks] at hc
    split_ifs at hc with h1 h2 h3
    · -- merged: the new accumulator is short
      refine packChunks_sound maxLen S rest _ hrest (Or.inl ?_) c hc
      calc (trimWs (current ++ [' '] ++ s)).length
          ≤ (current ++ [' '] ++ s).length := trimWs_length_le _
        _ ≤ maxLen := by simp only [List.length_append, List.length_cons,
            List.length_nil]; omega
    · -- merged into an empty accumulator: the new accumulator is the sentence
      exact packChunks_sound maxLen S rest s hrest (Or.inr hsS) c hc
    · -- overflow: `current` is emitted, packing restarts from `s`
      rcases List.mem_cons.mp hc with hceq | hc
      · exact hceq ▸ hcur
      · exact packChunks_sound maxLen S rest s hrest (Or.inr hsS) c hc
    · exact packChunks_sound maxLen S rest s hrest (Or.inr hsS) c hc

theorem synthesize_foldl (f : List Char → List Nat) :
    ∀ (chunks : List (List Char)) (acc : List Nat),
      chunks.foldl
        (fun acc ch => let pcm := f ch; if pcm ≠ [] then acc ++ pcm else acc) acc
      = acc ++ (chunks.map f).flatten
  | [], acc => by simp
  | ch :: rest, acc => by
    rw [List.foldl_cons, synthesize_foldl f rest]
    by_cases h : f ch = []
    · simp [h]
    · simp [h, List.append_assoc]

/-- **C7 (amended).**  Every chunk produced by `_split_text(text, 900)`
has length at most 900 **or** is a single (stripped) sentence of the
input that by itself exceeds 900 characters (the splitter never breaks
inside a sentence); and `synthesize` concatenates the per-chunk audio in
input order. -/
theorem split_text_bound_and_concat :
    (∀ (text : List Char) (c : List Char), c ∈ split_text text 900 →
      c.length ≤ 900 ∨ c ∈ pySplitSentences text)
    ∧ ∀ (f : List Char → List Nat) (text : List Char) (r : List Nat),
        synthesize f text = .ok r → r = ((split_text text 900).map f).flatten := by
  constructor
  · intro text c hc
    simp only [split_text] at hc
    split_ifs at hc with h1 h2
    · rw [List.mem_singleton] at hc
      exact Or.inl (hc ▸ h1)
    · exact packChunks_sound 900 (pySplitSentences text) (pySplitSentences text) []
        (fun s hs => hs) (Or.inl (by simp)) c hc
    · rw [List.mem_singleton] at hc
      refine Or.inl ?_
      rw [hc, List.length_take]
      omega
  · intro f text r h
    simp only [synthesize] at h
    rw [synthesize_foldl f, List.nil_append] at h
    split_ifs at h with hemp
    injection h with h
    exact h.symm

/-- Witness for `split_text_bound_and_concat` at a concrete text and a
concrete per-chunk synthesizer. -/
theorem split_text_bound_and_concat_witness :
    (['h', 'i'] ∈ split_text ['h', 'i'] 900)
    ∧ ((['h', 'i'] : List Char).length ≤ 900 ∨ ['h', 'i'] ∈ pySplitSentences ['h', 'i'])
    ∧ synthesize (fun _ => [7]) ['h', 'i'] = .ok [7]
    ∧ ([7] : List Nat) = ((split_text ['h', 'i'] 900).map fun _ => [7]).flatten :=
  ⟨by decide,
   split_text_bound_and_concat.1 ['h', 'i'] ['h', 'i'] (by decide),
   by rfl,
   split_text_bound_and_concat.2 (fun _ => [7]) ['h', 'i'] [7] (by rfl)⟩

theorem dropWhile_ws_replicate_a (n : Nat) :
    ((List.replicate n 'a').dropWhile fun c => c.isWhitespace)
      = List.replicate n 'a' := by
  cases n with
  | zero => rfl
  | succ m =>
    rw [List.replicate_succ, List.dropWhile_cons, if_neg (by decide)]

theorem trimWs_replicate_a (n : Nat) :
    trimWs (List.replicate n 'a') = List.replicate n 'a' := by
  unfold trimWs
  rw [dropWhile_ws_replicate_a, List.reverse_replicate, dropWhile_ws_replicate_a,
    List.reverse_replicate]

theorem sentenceGo_replicate_a :
    ∀ (n : Nat) (temp : List Char),
      sentenceGo (List.replicate n 'a') temp
        = if trimWs (temp ++ List.replicate n 'a') ≠ []
          then [trimWs (temp ++ List.replicate n 'a')] else []
  | 0, temp => by rw [List.replicate_zero, List.append_nil]; rfl
  | n + 1, temp => by
    rw [List.replicate_succ]
    show sentenceGo ('a' :: List.replicate n 'a') temp = _
    rw [sentenceGo, if_neg (by simp [enders]), sentenceGo_replicate_a n (temp ++ ['a']),
      List.append_assoc]
    rfl

/-- **C7 counterexample.**  A 5000-character input with no sentence
terminator is returned by `_split_text(·, 900)` as a single 5000-character
chunk, far above the claimed ~900-character bound. -/
theorem split_text_oversize_chunk :
    List.replicate 5000 'a' ∈ split_text (List.replicate 5000 'a') 900
    ∧ 900 < (List.replicate 5000 'a' : List Char).length := by
  have hrep : (List.replicate 5000 'a' : List Char) ≠ [] := by
    intro h
    have h5 := congrArg List.length h
    rw [List.length_replicate, List.length_nil] at h5
    exact absurd h5 (by decide)
  have hsent : pySplitSentences (List.replicate 5000 'a')
      = [List.replicate 5000 'a'] := by
    unfold pySplitSentences
    rw [sentenceGo_replicate_a 5000 [], List.nil_append, trimWs_replicate_a,
      if_pos hrep]
  have hpack : packChunks 900 [List.replicate 5000 'a'] []
      = [List.replicate 5000 'a'] := by
    rw [packChunks,
      if_neg (by rw [List.length_nil, List.length_replicate]; decide),
      if_neg (by simp), packChunks, if_pos hrep]
  constructor
  · simp only [split_text]
    rw [if_neg (by rw [List.length_replicate]; decide), hsent, hpack,
      if_pos (List.cons_ne_nil _ _)]
    exact List.mem_singleton.mpr rfl
  · rw [List.length_replicate]
    decide

/-! ### src/core/sessions — `_process_speech` of the pipeline and
llm_script variants

The session fields this handler touches are modelled in `SessState`.
External calls (ASR, LLM, TTS, playback, fire-and-forget storage tasks)
are oracles and effects; concurrent mutations of `is_active` /
`barge_in_triggered` by the frame handler are modelled by per-read
oracles, while `SessState.barge_in_triggered` records the handler's own
write (it sets the flag to `False` on entry). -/

/-- One entry of `self.messages`. -/
structure Msg where
  role : String
  content : String
  deriving DecidableEq

/-- Session fields read or written by `_process_speech`. -/
structure SessState where
  total_turns : Nat
  barge_in_triggered : Bool
  messages : List Msg
  transcript : List String
  turn_metrics : List (Nat × Nat × String)
  deriving DecidableEq

/-- Effects dispatched by `_process_speech`:  fire-and-forget storage
tasks and playback calls. -/
inductive SessEff
  | storageUserSpeech (text : String) (asr_ms : Nat)
  | storageBotResponse (text : String)
  | playCall (pcm : List Nat) (rate : Nat)
  deriving DecidableEq

/-- Transcript tag `"\U0001f9d1Client: "`. -/
def clientTag : String := String.singleton (Char.ofNat 129489) ++ "Client: "

/-- Transcript tag `"\U0001f916Bot: "`. -/
def botTag : String := String.singleton (Char.ofNat 129302) ++ "Bot: "

/-- Oracle for one pipeline `_process_speech` invocation. -/
structure PipeEnv where
  asrResult : Except Unit String
  asr_ms : Nat
  llmSentences : List String
  llmRaises : Bool
  tts : String → Except Unit (List Nat × Nat)
  activeAtLoop : Nat → Bool
  bargeAtLoop : Nat → Bool
  activeAtPlay : Nat → Bool
  bargeAtPlay : Nat → Bool

/-- The `async for sentence in chat_stream_sentences(...)` loop of the
pipeline variant: break when inactive or barged-in; accumulate
`full_response`; synthesize (a per-sentence failure is logged and the
loop continues); play when the audio is non-empty and the session is
still uninterrupted.  Returns the accumulated response, the effects, and
whether the stream raised (which happens only after all yielded sentences
were consumed). -/
def runStream (env : PipeEnv) :
    List String → Nat → String → List SessEff → String × List SessEff × Bool
  | [], _, full, effs => (full, effs, env.llmRaises)
  | stc :: rest, i, full, effs =>
    if ¬ env.activeAtLoop i ∨ env.bargeAtLoop i then (full, effs, false)
    else
      let full1 := full ++ (if full = "" then "" else " ") ++ stc
      match env.tts stc with
      | .error _ => runStream env rest (i + 1) full1 effs
      | .ok (pcm, rate) =>
        if pcm ≠ [] ∧ env.activeAtPlay i ∧ ¬ env.bargeAtPlay i then
          runStream env rest (i + 1) full1 (effs ++ [.playCall pcm rate])
        else
          runStream env rest (i + 1) full1 effs

/-- `PipelineSession._process_speech(audio_data)`
(`src/core/sessions/session_pipeline.py`).  `total_turns` is incremented
and `barge_in_triggered` cleared at entry; an ASR exception or empty ASR
text logs and returns; otherwise the user turn is recorded, the stream
loop runs, and a non-blank accumulated response is recorded as the
assistant turn. -/
def process_speech_pipeline (env : PipeEnv) (s : SessState) :
    SessState × List SessEff :=
  let s0 : SessState :=
    { s with total_turns := s.total_turns + 1, barge_in_triggered := false }
  match env.asrResult with
  | .error _ => (s0, [])
  | .ok text =>
    if text = "" then (s0, [])
    else
      let s1 : SessState := { s0 with
        messages := s0.messages ++ [⟨"user", text⟩],
        transcript := s0.transcript ++ [clientTag ++ text],
        turn_metrics := s0.turn_metrics ++ [(s0.total_turns, env.asr_ms, text)] }
      let effs0 : List SessEff := [.storageUserSpeech text env.asr_ms]
      match runStream env env.llmSentences 0 "" [] with
      | (full, effs1, llmErr) =>
        if llmErr then (s1, effs0 ++ effs1)
        else if full.trim ≠ "" then
          ({ s1 with
              messages := s1.messages ++ [⟨"assistant", full.trim⟩],
              transcript := s1.transcript ++ [botTag ++ full.trim] },
           effs0 ++ effs1 ++ [.storageBotResponse full.trim])
        else (s1, effs0 ++ effs1)

/-- Drop leading and trailing occurrences of one character
(Python `str.strip(c)`). -/
def stripCharEnds (c : Char) (l : List Char) : List Char :=
  ((l.dropWhile (· = c)).reverse.dropWhile (· = c)).reverse

/-- `raw_answer.strip().strip('"').strip("'").strip()`. -/
def pyStripQuotes (raw : String) : String :=
  ⟨trimWs (stripCharEnds (Char.ofNat 39) (stripCharEnds (Char.ofNat 34)
    (trimWs raw.data)))⟩

/-- Oracle for one llm_script `_process_speech` invocation. -/
structure ScriptEnv where
  asrResult : Except Unit String
  asr_ms : Nat
  llmChat : Except Unit String
  tracks : List (String × List Nat × Nat)
  activeAtPlay : Bool
  bargeAtPlay : Bool

/-- `LLMScriptSession._process_speech(audio_data)`
(`src/core/sessions/session_llm_script.py`).  Same entry and ASR phase as
the pipeline variant; then `chat` picks a file name, always recorded as
the assistant message; a catalog hit plays the track (when still active
and uninterrupted) and records `[name]`, a miss records
`[unknown: name]`. -/
def process_speech_script (env : ScriptEnv) (s : SessState) :
    SessState × List SessEff :=
  let s0 : SessState :=
    { s with total_turns := s.total_turns + 1, barge_in_triggered := false }
  match env.asrResult with
  | .error _ => (s0, [])
  | .ok text =>
    if text = "" then (s0, [])
    else
      let s1 : SessState := { s0 with
        messages := s0.messages ++ [⟨"user", text⟩],
        transcript := s0.transcript ++ [clientTag ++ text],
        turn_metrics := s0.turn_metrics ++ [(s0.total_turns, env.asr_ms, text)] }
      let effs0 : List SessEff := [.storageUserSpeech text env.asr_ms]
      match env.llmChat with
      | .error _ => (s1, effs0)
      | .ok raw =>
        let chosen := pyStripQuotes raw
        let s2 : SessState :=
          { s1 with messages := s1.messages ++ [⟨"assistant", chosen⟩] }
        let effs1 := effs0 ++ [.storageBotResponse chosen]
        match env.tracks.lookup chosen with
        | some (pcm, rate) =>
          let s3 : SessState := { s2 with
            transcript := s2.transcript ++ [botTag ++ "[" ++ chosen ++ "]"] }
          if env.activeAtPlay ∧ ¬ env.bargeAtPlay then
            (s3, effs1 ++ [.playCall pcm rate])
          else (s3, effs1)
        | none =>
          ({ s2 with transcript :=
              s2.transcript ++ [botTag ++ "[unknown: " ++ chosen ++ "]"] },
           effs1)

/-- **C1 (amended).**  In both variants, when ASR succeeds with empty
text the handler logs and returns before recording anything: no user
entry is appended to the dialog context, the transcript or the turn
metrics and no storage or playback effect is emitted — but the turn
counter, incremented unconditionally at entry, is one *greater* than
before the invocation (the original "total_turns is the same" fails). -/
theorem empty_asr_appends_nothing_but_increments_turns
    (envP : PipeEnv) (envS : ScriptEnv) (s t : SessState)
    (hP : envP.asrResult = .ok "") (hS : envS.asrResult = .ok "") :
    process_speech_pipeline envP s
      = ({ s with total_turns := s.total_turns + 1,
                  barge_in_triggered := false }, [])
    ∧ process_speech_script envS t
      = ({ t with total_turns := t.total_turns + 1,
                  barge_in_triggered := false }, []) := by
  constructor
  · simp only [process_speech_pipeline, hP]
    rw [if_pos trivial]
  · simp only [process_speech_script, hS]
    rw [if_pos trivial]

/-- Environment for the concrete empty-ASR run: ASR succeeds with `""`. -/
def envP0 : PipeEnv :=
  { asrResult := .ok "", asr_ms := 5, llmSentences := ["Hi."],
    llmRaises := false, tts := fun _ => .ok ([1], 8000),
    activeAtLoop := fun _ => true, bargeAtLoop := fun _ => false,
    activeAtPlay := fun _ => true, bargeAtPlay := fun _ => false }

/-- Script-variant environment for the concrete empty-ASR run. -/
def envS0 : ScriptEnv :=
  { asrResult := .ok "", asr_ms := 5, llmChat := .ok "a.wav",
    tracks := [("a.wav", [1], 8000)], activeAtPlay := true,
    bargeAtPlay := false }

/-- A fresh session state. -/
def sess0 : SessState :=
  { total_turns := 0, barge_in_triggered := false, messages := [],
    transcript := [], turn_metrics := [] }

/-- Witness for `empty_asr_appends_nothing_but_increments_turns` at the
concrete environments. -/
theorem empty_asr_witness :
    envP0.asrResult = Except.ok "" ∧ envS0.asrResult = Except.ok ""
    ∧ (process_speech_pipeline envP0 sess0
        = ({ sess0 with total_turns := sess0.total_turns + 1,
                        barge_in_triggered := false }, [])
      ∧ process_speech_script envS0 sess0
        = ({ sess0 with total_turns := sess0.total_turns + 1,
                        barge_in_triggered := false }, [])) :=
  ⟨rfl, rfl,
   empty_asr_appends_nothing_but_increments_turns envP0 envS0 sess0 sess0 rfl rfl⟩

/-- **C1 counterexample.**  At a concrete invocation in which ASR
succeeds with empty text, `total_turns` differs after the call from
before it, in both variants. -/
theorem empty_asr_turn_counter_changes :
    (process_speech_pipeline envP0 sess0).1.total_turns ≠ sess0.total_turns
    ∧ (process_speech_script envS0 sess0).1.total_turns ≠ sess0.total_turns := by
  constructor
  · intro h
    exact absurd h (by decide)
  · intro h
    exact absurd h (by decide)

end VoicePlatform
